import Mathlib

/-!
Shallow embedding of the `vcfscan` terminal VCF viewer (src/src/main.rs).

Strings are modelled with Lean `String` (a wrapper around `List Char`);
the Rust string operations used by the program (`trim`, `to_lowercase`,
`contains`, `split('\t')`, `split_once('-')`, `parse::<u64>()`, `push`,
`pop`, `to_string` on `u64`) are embedded as executable functions over the
underlying character lists.  The TUI rendering layer is out of scope; the
state machine, decoder and filter engine are embedded in full.
-/

namespace Vcfscan

/-- One parsed VCF record (struct `VcfRecord` in the source). -/
structure VcfRecord where
  chrom : String
  pos : String
  id : String
  ref_ : String
  alt : String
  qual : String
  filter : String
  info : String
  deriving Repr, DecidableEq

/-- Rust `str::trim` on the character list (whitespace stripped from both
ends; ASCII whitespace as recognised by `Char.isWhitespace`). -/
def trimCh (cs : List Char) : List Char :=
  ((cs.dropWhile Char.isWhitespace).reverse.dropWhile Char.isWhitespace).reverse

/-- Rust `str::trim` at the `String` level. -/
def trimStr (s : String) : String := ⟨trimCh s.data⟩

/-- Rust `str::to_lowercase` (per-character lowering). -/
def lowerCh (cs : List Char) : List Char := cs.map Char.toLower

/-- Rust `str::contains(pat)`: `pat` occurs contiguously somewhere in `hay`. -/
def strContains (hay pat : List Char) : Bool :=
  (List.range (hay.length + 1)).any (fun i => ((hay.drop i).take pat.length) == pat)

/-- Rust `str::parse::<u64>()`: an optional leading `'+'`, then one or more
ASCII digits, value bounded by `u64::MAX`; anything else is `none`. -/
def parseU64ch (cs : List Char) : Option Nat :=
  let ds := match cs with
    | '+' :: rest => rest
    | other => other
  if ds.isEmpty then none
  else if ds.all Char.isDigit then
    let v := ds.foldl (fun a c => a * 10 + (c.toNat - 48)) 0
    if v < 2 ^ 64 then some v else none
  else none

/-- `str::parse::<u64>()` at the `String` level. -/
def parseU64 (s : String) : Option Nat := parseU64ch s.data

/-- Rust `str::split_once(c)`: split at the first occurrence of `c`,
delimiter removed; `none` when `c` does not occur. -/
def splitOnce (c : Char) : List Char → Option (List Char × List Char)
  | [] => none
  | x :: xs =>
    if x = c then some ([], xs)
    else (splitOnce c xs).map (fun p => (x :: p.1, p.2))

/-- Rust `str::split(c)` (always at least one field; empty fields kept). -/
def splitCh (c : Char) : List Char → List (List Char)
  | [] => [[]]
  | x :: xs =>
    if x = c then [] :: splitCh c xs
    else match splitCh c xs with
      | [] => [[x]]
      | f :: rest => (x :: f) :: rest

/-- Rust `u64::to_string` digits, via fuel-bounded division by 10. -/
def natDigitsAux : Nat → Nat → List Char
  | 0, _ => []
  | fuel + 1, n =>
    if n = 0 then []
    else natDigitsAux fuel (n / 10) ++ [Char.ofNat (48 + n % 10)]

/-- Rust `u64::to_string`: canonical decimal representation. -/
def natToString (n : Nat) : String :=
  if n = 0 then "0" else ⟨natDigitsAux (n + 1) n⟩

/-- enum `PosRange` from the source. -/
inductive PosRange where
  | None
  | Exact (pos : Nat)
  | Range (start stop : Nat)
  deriving Repr, DecidableEq

/-- `fn parse_pos_range(input: &str) -> PosRange`. -/
def parse_pos_range (input : String) : PosRange :=
  let s := trimCh input.data
  if s.isEmpty then .None
  else match parseU64ch s with
    | some pos => .Exact pos
    | none =>
      match splitOnce '-' s with
      | some (start_str, end_str) =>
        match parseU64ch (trimCh start_str), parseU64ch (trimCh end_str) with
        | some start, some stop =>
          if start ≤ stop then .Range start stop else .None
        | _, _ => .None
      | none => .None

/-- struct `VcfState` from the source. -/
structure VcfState where
  records : List VcfRecord
  selected : Option Nat
  chrom_filter : String
  ref_filter : String
  alt_filter : String
  pos_filter : String
  deriving Repr

/-- The `pos_ok` check inside `App::filtered_records`: `PosRange::None`
always passes; `Exact(pos)` compares the record's position text with the
canonical decimal string of `pos`; `Range(start, end)` parses the position
as `u64` and checks inclusion. -/
def pos_ok (pr : PosRange) (r : VcfRecord) : Bool :=
  match pr with
  | .None => true
  | .Exact pos => r.pos == natToString pos
  | .Range start stop =>
    match parseU64ch r.pos.data with
    | some p => decide (start ≤ p) && decide (p ≤ stop)
    | none => false

/-- The per-record closure inside `App::filtered_records`: the three
substring criteria (empty criterion passes; otherwise case-insensitive
substring) and the position check, all required simultaneously. -/
def recordMatches (v : VcfState) (pr : PosRange) (r : VcfRecord) : Bool :=
  let chrom := v.chrom_filter.data.isEmpty
    || strContains (lowerCh r.chrom.data) (lowerCh v.chrom_filter.data)
  let ref_ok := v.ref_filter.data.isEmpty
    || strContains (lowerCh r.ref_.data) (lowerCh v.ref_filter.data)
  let alt_ok := v.alt_filter.data.isEmpty
    || strContains (lowerCh r.alt.data) (lowerCh v.alt_filter.data)
  chrom && ref_ok && alt_ok && pos_ok pr r

/-- `App::filtered_records` (restricted to the `VcfState` it reads). -/
def filtered_records (v : VcfState) : List VcfRecord :=
  let pr := parse_pos_range v.pos_filter
  v.records.filter (recordMatches v pr)

/-- The body of the `for line in reader.lines()` loop of `parse_vcf`,
for one line that was read successfully: skip comment lines (leading `#`)
and lines with fewer than 5 tab-separated fields, otherwise build a record
positionally with fields 5–7 defaulting to `"."`. -/
def parseLine (line : String) : Option VcfRecord :=
  if line.data.head? = some '#' then none
  else
    let fields := splitCh '\t' line.data
    if fields.length < 5 then none
    else some {
      chrom := ⟨fields.getD 0 []⟩
      pos := ⟨fields.getD 1 []⟩
      id := ⟨fields.getD 2 []⟩
      ref_ := ⟨fields.getD 3 []⟩
      alt := ⟨fields.getD 4 []⟩
      qual := ⟨fields.getD 5 ".".data⟩
      filter := ⟨fields.getD 6 ".".data⟩
      info := ⟨fields.getD 7 ".".data⟩ }

/-- The loop of `fn parse_vcf` over the lines read from the file: each
line is itself a fallible read (`io::Result<String>`); the first failed
read aborts the whole parse with an error (`let line = line?`). -/
def parseLines : List (Except Unit String) → Except Unit (List VcfRecord)
  | [] => .ok []
  | .error e :: _ => .error e
  | .ok l :: rest =>
    match parseLines rest with
    | .error e => .error e
    | .ok rs =>
      .ok (match parseLine l with
        | some r => r :: rs
        | none => rs)

/-- `fn parse_vcf(path) -> Result<Vec<VcfRecord>, _>`: `File::open` may
fail (outer `Except`), and each line read may fail. -/
def parse_vcf (contents : Except Unit (List (Except Unit String))) :
    Except Unit (List VcfRecord) :=
  match contents with
  | .error e => .error e
  | .ok lines => parseLines lines

/-- struct `TabsState` from the source. -/
structure TabsState where
  index : Nat
  titles : List String
  deriving Repr

/-- struct `FileListState` from the source (`PathBuf` as `String`). -/
structure FileListState where
  items : List String
  selected : Option Nat
  filter : String
  deriving Repr

/-- enum `ModalKind` from the source. -/
inductive ModalKind where
  | Menu
  | Chrom
  | Ref
  | Alt
  | Pos
  deriving Repr, DecidableEq

/-- struct `ModalState` from the source. -/
structure ModalState where
  kind : ModalKind
  input : String
  menu_selected : Nat
  deriving Repr

/-- `ModalState::new_menu`. -/
def ModalState.new_menu : ModalState :=
  { kind := .Menu, input := "", menu_selected := 0 }

/-- `ModalState::new_input`. -/
def ModalState.new_input (kind : ModalKind) : ModalState :=
  { kind := kind, input := "", menu_selected := 0 }

/-- struct `App` from the source. -/
structure App where
  tabs : TabsState
  files : FileListState
  vcf : VcfState
  modal : Option ModalState
  deriving Repr

/-- The key codes the program dispatches on (`crossterm::event::KeyCode`);
every other key is `Other`. -/
inductive KeyCode where
  | Char (c : Char)
  | Up
  | Down
  | Enter
  | Esc
  | Backspace
  | Tab
  | Other
  deriving Repr, DecidableEq

/-- Rust `String::push`. -/
def strPush (s : String) (c : Char) : String := ⟨s.data ++ [c]⟩

/-- Rust `String::pop` restricted to its effect on the string (drop the
last character if any). -/
def strPop (s : String) : String := ⟨s.data.dropLast⟩

/-- `App::load_selected_vcf`.  The filesystem is an explicit oracle `fs`
mapping each path to the outcome of opening and reading it; the source's
unchecked `self.files.items[idx]` is embedded with `List.getD` (theorem
`c9_file_selection_in_bounds` shows the index is always in bounds in
reachable states). -/
def load_selected_vcf (fs : String → Except Unit (List (Except Unit String)))
    (app : App) : App :=
  match app.files.selected with
  | none => app
  | some idx =>
    let path := app.files.items.getD idx ""
    { app with vcf := { app.vcf with
        records := (parse_vcf (fs path)).toOption.getD []
        selected := none } }

/-- `fn handle_files_tab`.  `Char('q')` calls `process::exit(0)`: the
process terminates with the state unchanged, embedded as the identity. -/
def handle_files_tab (fs : String → Except Unit (List (Except Unit String)))
    (app : App) (key : KeyCode) : App :=
  match key with
  | .Char c =>
    if c = 'q' then app
    else { app with files := { app.files with filter := strPush app.files.filter c } }
  | .Down =>
    match app.files.selected with
    | some sel =>
      if sel + 1 < app.files.items.length then
        { app with files := { app.files with selected := some (sel + 1) } }
      else app
    | none => app
  | .Up =>
    match app.files.selected with
    | some sel =>
      if sel > 0 then
        { app with files := { app.files with selected := some (sel - 1) } }
      else app
    | none => app
  | .Enter =>
    let a := load_selected_vcf fs app
    { a with tabs := { a.tabs with index := 1 } }
  | .Backspace =>
    { app with files := { app.files with filter := strPop app.files.filter } }
  | .Tab =>
    { app with tabs := { app.tabs with index := (app.tabs.index + 1) % app.tabs.titles.length } }
  | _ => app

/-- `fn handle_vcf_tab`. -/
def handle_vcf_tab (app : App) (key : KeyCode) : App :=
  match key with
  | .Char c =>
    if c = 'q' then { app with tabs := { app.tabs with index := 0 } }
    else if c = 'f' then { app with modal := some ModalState.new_menu }
    else app
  | .Esc => { app with tabs := { app.tabs with index := 0 } }
  | .Down =>
    let filtered := filtered_records app.vcf
    match app.vcf.selected with
    | some sel =>
      if sel + 1 < filtered.length then
        { app with vcf := { app.vcf with selected := some (sel + 1) } }
      else app
    | none =>
      if filtered.isEmpty then app
      else { app with vcf := { app.vcf with selected := some 0 } }
  | .Up =>
    match app.vcf.selected with
    | some sel =>
      if sel > 0 then
        { app with vcf := { app.vcf with selected := some (sel - 1) } }
      else app
    | none => app
  | .Tab =>
    { app with tabs := { app.tabs with index := (app.tabs.index + 1) % app.tabs.titles.length } }
  | _ => app

/-- `fn handle_modal_key`.  The source unwraps `app.modal`; the event loop
only calls it when a modal is open, so the `none` branch (a panic in the
source) is never reached from `step`. -/
def handle_modal_key (app : App) (key : KeyCode) : App :=
  match app.modal with
  | none => app
  | some modal =>
    match modal.kind with
    | .Menu =>
      match key with
      | .Up =>
        { app with modal := some { modal with
            menu_selected := if modal.menu_selected > 0 then modal.menu_selected - 1
              else modal.menu_selected } }
      | .Down =>
        { app with modal := some { modal with
            menu_selected := if modal.menu_selected < 5 then modal.menu_selected + 1
              else modal.menu_selected } }
      | .Enter =>
        match modal.menu_selected with
        | 0 => { app with modal := some (ModalState.new_input .Chrom) }
        | 1 => { app with modal := some (ModalState.new_input .Ref) }
        | 2 => { app with modal := some (ModalState.new_input .Alt) }
        | 3 => { app with modal := some (ModalState.new_input .Pos) }
        | 4 =>
          { app with
            vcf := { app.vcf with
              chrom_filter := "", ref_filter := "", alt_filter := "", pos_filter := "" }
            modal := none }
        | 5 => { app with modal := none }
        | _ => app
      | .Esc => { app with modal := none }
      | _ => app
    | _ =>
      match key with
      | .Char c => { app with modal := some { modal with input := strPush modal.input c } }
      | .Backspace => { app with modal := some { modal with input := strPop modal.input } }
      | .Enter =>
        let txt := trimStr modal.input
        let vcf := match modal.kind with
          | .Chrom => { app.vcf with chrom_filter := txt }
          | .Ref => { app.vcf with ref_filter := txt }
          | .Alt => { app.vcf with alt_filter := txt }
          | .Pos => { app.vcf with pos_filter := txt }
          | .Menu => app.vcf
        { app with vcf := vcf, modal := none }
      | .Esc => { app with modal := none }
      | _ => app

/-- One iteration of the event loop in `fn main`: a modal takes priority,
otherwise the active tab's handler runs. -/
def step (fs : String → Except Unit (List (Except Unit String)))
    (app : App) (key : KeyCode) : App :=
  if app.modal.isSome then handle_modal_key app key
  else match app.tabs.index with
    | 0 => handle_files_tab fs app key
    | 1 => handle_vcf_tab app key
    | _ => app

/-- `App::new` with the walkdir discovery result passed in as `items`
(tab titles set; everything else default). -/
def App.new (items : List String) : App :=
  { tabs := { index := 0, titles := ["Files", "VCF Viewer"] }
    files := { items := items, selected := none, filter := "" }
    vcf := { records := [], selected := none, chrom_filter := "", ref_filter := ""
             alt_filter := "", pos_filter := "" }
    modal := none }

/-- The startup sequence in `fn main`: select index 0 when the catalog is
non-empty, then eagerly load the selected file. -/
def initApp (fs : String → Except Unit (List (Except Unit String)))
    (items : List String) : App :=
  let app := App.new items
  let app := { app with files := { app.files with
      selected := if items.isEmpty then none else some 0 } }
  if app.files.selected.isSome then load_selected_vcf fs app else app

/-- The file-catalog safety invariant: the selection is `none` or an index
strictly inside the item list (so `self.files.items[idx]` in
`App::load_selected_vcf` cannot go out of bounds). -/
def FileSelInv (app : App) : Prop :=
  ∀ i, app.files.selected = some i → i < app.files.items.length

/-! ## Concrete fixtures used by the witness theorems -/

/-- Concrete record fixture. -/
def exRecord : VcfRecord :=
  { chrom := "chr1", pos := "100", id := "rs1", ref_ := "A", alt := "G"
    qual := ".", filter := ".", info := "." }

/-- Second concrete record fixture. -/
def exRecord2 : VcfRecord :=
  { chrom := "chr2", pos := "250", id := "rs2", ref_ := "C", alt := "T"
    qual := ".", filter := ".", info := "." }

/-- A `VcfState` with two records and no active criteria. -/
def exVcfEmpty : VcfState :=
  { records := [exRecord, exRecord2], selected := none, chrom_filter := ""
    ref_filter := "", alt_filter := "", pos_filter := "" }

/-- A `VcfState` with two records and an active chromosome criterion. -/
def exVcfChr : VcfState := { exVcfEmpty with chrom_filter := "CHR1" }

/-- A filesystem oracle on which every open fails. -/
def exFsErr : String → Except Unit (List (Except Unit String)) :=
  fun _ => .error ()

/-- An `App` on the Files tab with one discovered file selected. -/
def exAppFiles : App :=
  { tabs := { index := 0, titles := ["Files", "VCF Viewer"] }
    files := { items := ["a.vcf"], selected := some 0, filter := "" }
    vcf := exVcfEmpty
    modal := none }

/-- An `App` with the filter Menu modal open. -/
def exAppMenu : App := { exAppFiles with modal := some ModalState.new_menu }

/-- An `App` with the position TextInput modal open and a pending buffer. -/
def exAppInput : App :=
  { exAppFiles with modal := some { kind := .Pos, input := " 200 ", menu_selected := 0 } }

/-- An `App` on the VCF tab whose record selection is past the end of the
(restrictively filtered) view. -/
def exAppStale : App :=
  { tabs := { index := 1, titles := ["Files", "VCF Viewer"] }
    files := { items := ["a.vcf"], selected := some 0, filter := "" }
    vcf := { exVcfEmpty with selected := some 5, chrom_filter := "zzz" }
    modal := none }

/-! ## Helper lemmas -/

/-- The Rust-style substring test `strContains` holds exactly when the
pattern occurs contiguously in the haystack. -/
theorem strContains_iff (hay pat : List Char) :
    strContains hay pat = true ↔ ∃ s t, s ++ pat ++ t = hay := by
  unfold strContains
  rw [List.any_eq_true]
  constructor
  · rintro ⟨i, hi, hp⟩
    rw [beq_iff_eq] at hp
    refine ⟨hay.take i, hay.drop (i + pat.length), ?_⟩
    have key := List.drop_take_append_drop hay i pat.length
    rw [hp] at key
    conv_rhs => rw [← List.take_append_drop i hay]
    rw [List.append_assoc, key]
  · rintro ⟨s, t, rfl⟩
    refine ⟨s.length, ?_, ?_⟩
    · rw [List.mem_range, List.length_append, List.length_append]
      omega
    · rw [beq_iff_eq, List.append_assoc, List.drop_left, List.take_left]

/-! ## Claim C1: the position check of the filter engine -/

/-- **C1.** For every record, the filter engine's position check satisfies:
`PosRange.None` (Unconstrained) passes every record; `Exact v` passes a
record iff the record's position field, as text, equals the canonical
decimal representation of `v` (pure text comparison, so leading zeros or
non-numeric text fail unless the text matches exactly); `Range lo hi`
passes iff the position field parses as a non-negative integer `p` with
`lo ≤ p ≤ hi`, so any record whose position does not parse fails `Range`. -/
theorem c1_position_check (r : VcfRecord) :
    pos_ok PosRange.None r = true
    ∧ (∀ v : Nat, pos_ok (PosRange.Exact v) r = true ↔ r.pos = natToString v)
    ∧ (∀ lo hi : Nat, pos_ok (PosRange.Range lo hi) r = true ↔
        ∃ p, parseU64 r.pos = some p ∧ lo ≤ p ∧ p ≤ hi) := by
  refine ⟨rfl, ?_, ?_⟩
  · intro v
    simp [pos_ok, beq_iff_eq]
  · intro lo hi
    simp only [pos_ok, parseU64]
    cases h : parseU64ch r.pos.data with
    | none => simp
    | some p => simp [h]

/-! ## Claim C2: the position predicate parser -/

/-- **C2.** `parse_pos_range` trims its input; an empty result yields
Unconstrained; a string that parses whole as a non-negative integer yields
`Exact`; otherwise a split at the hyphen whose two trimmed sides both
parse with `lo ≤ hi` yields `Range lo hi`; every other case (non-numeric
parts, multiple hyphens, `lo > hi`) falls back to Unconstrained, and every
`Range` produced satisfies `lo ≤ hi`.  The spec's test vectors are
included. -/
theorem c2_parse_pos_range :
    (∀ s : String, (trimCh s.data).isEmpty = true → parse_pos_range s = .None)
    ∧ (∀ (s : String) (v : Nat), parseU64ch (trimCh s.data) = some v →
        parse_pos_range s = .Exact v)
    ∧ (∀ (s : String) (a b : List Char) (lo hi : Nat),
        parseU64ch (trimCh s.data) = none →
        splitOnce '-' (trimCh s.data) = some (a, b) →
        parseU64ch (trimCh a) = some lo → parseU64ch (trimCh b) = some hi →
        lo ≤ hi → parse_pos_range s = .Range lo hi)
    ∧ (∀ (s : String) (v : Nat), parse_pos_range s = .Exact v →
        parseU64ch (trimCh s.data) = some v)
    ∧ (∀ (s : String) (lo hi : Nat), parse_pos_range s = .Range lo hi →
        lo ≤ hi ∧ parseU64ch (trimCh s.data) = none
        ∧ ∃ a b, splitOnce '-' (trimCh s.data) = some (a, b)
            ∧ parseU64ch (trimCh a) = some lo ∧ parseU64ch (trimCh b) = some hi)
    ∧ parse_pos_range "100" = .Exact 100
    ∧ parse_pos_range "100-200" = .Range 100 200
    ∧ parse_pos_range "200-100" = .None
    ∧ parse_pos_range "abc" = .None
    ∧ parse_pos_range "" = .None
    ∧ parse_pos_range "100-200-300" = .None := by
  refine ⟨?_, ?_, ?_, ?_, ?_, by decide, by decide, by decide, by decide, by decide, by decide⟩
  · intro s h
    simp [parse_pos_range, h]
  · intro s v hv
    have hne : (trimCh s.data).isEmpty = false := by
      cases h : trimCh s.data with
      | nil => rw [h] at hv; simp [parseU64ch] at hv
      | cons c cs => rfl
    simp [parse_pos_range, hne, hv]
  · intro s a b lo hi h1 h2 h3 h4 h5
    have hne : (trimCh s.data).isEmpty = false := by
      cases h : trimCh s.data with
      | nil => rw [h] at h2; simp [splitOnce] at h2
      | cons c cs => rfl
    simp [parse_pos_range, hne, h1, h2, h3, h4, h5]
  · intro s v h
    simp only [parse_pos_range] at h
    split at h
    · simp at h
    · split at h
      · next heq =>
        injection h with h1
        subst h1
        exact heq
      · split at h
        · split at h
          · split at h
            · simp at h
            · simp at h
          · simp at h
        · simp at h
  · intro s lo hi h
    simp only [parse_pos_range] at h
    split at h
    · simp at h
    · split at h
      · simp at h
      · next hnone =>
        split at h
        · next a b hpair =>
          split at h
          · next heqa heqb =>
            split at h
            · next hle =>
              injection h with h1 h2
              subst h1; subst h2
              exact ⟨hle, hnone, a, b, hpair, heqa, heqb⟩
            · simp at h
          · simp at h
        · simp at h

/-- Witness for C2: the parser applied at concrete inputs through
`c2_parse_pos_range`. -/
theorem c2_parse_pos_range_witness :
    parse_pos_range " 42 " = .Exact 42 ∧ (100 : Nat) ≤ 200 :=
  ⟨c2_parse_pos_range.2.1 " 42 " 42 (by decide),
   (c2_parse_pos_range.2.2.2.2.1 "100-200" 100 200 (by decide)).1⟩

/-! ## Claim C3: case-insensitive substring criteria, applied jointly -/

/-- **C3.** With a non-empty chromosome criterion, the filter engine
returns an order-preserving subsequence of the records, and a record is in
the output iff it is an input record whose lowercased chromosome field
contains the lowercased criterion contiguously, the reference and
alternate criteria pass under the same case-insensitive substring rule
(empty criterion passes), and the position check passes — all criteria
simultaneously. -/
theorem c3_substring_filter (v : VcfState) (h : v.chrom_filter.data.isEmpty = false) :
    List.Sublist (filtered_records v) v.records
    ∧ (∀ r : VcfRecord, r ∈ filtered_records v ↔
        r ∈ v.records
        ∧ (∃ s t, s ++ lowerCh v.chrom_filter.data ++ t = lowerCh r.chrom.data)
        ∧ (v.ref_filter.data.isEmpty = true
            ∨ ∃ s t, s ++ lowerCh v.ref_filter.data ++ t = lowerCh r.ref_.data)
        ∧ (v.alt_filter.data.isEmpty = true
            ∨ ∃ s t, s ++ lowerCh v.alt_filter.data ++ t = lowerCh r.alt.data)
        ∧ pos_ok (parse_pos_range v.pos_filter) r = true) := by
  refine ⟨List.filter_sublist _, ?_⟩
  intro r
  simp only [filtered_records, List.mem_filter, recordMatches, Bool.and_eq_true,
    Bool.or_eq_true, strContains_iff, h, and_assoc]
  simp

/-- Witness for C3: in the concrete state `exVcfChr` (criterion `"CHR1"`)
the record with chromosome `"chr1"` passes the filter. -/
theorem c3_substring_filter_witness :
    exRecord ∈ filtered_records exVcfChr :=
  ((c3_substring_filter exVcfChr (by decide)).2 exRecord).mpr
    ⟨by decide, ⟨[], [], by decide⟩, Or.inl (by decide), Or.inl (by decide), by decide⟩

/-! ## Claim C4: identity on empty criteria; always a subsequence -/

/-- **C4.** With all four criteria empty the filter engine returns the
record list unchanged, and for every choice of criteria the output is an
order-preserving subsequence (`List.Sublist`) of the input. -/
theorem c4_filter_identity (v : VcfState) :
    ((v.chrom_filter = "" ∧ v.ref_filter = "" ∧ v.alt_filter = "" ∧ v.pos_filter = "") →
      filtered_records v = v.records)
    ∧ List.Sublist (filtered_records v) v.records := by
  refine ⟨?_, List.filter_sublist _⟩
  rintro ⟨h1, h2, h3, h4⟩
  simp only [filtered_records]
  apply List.filter_eq_self.mpr
  intro r _
  have hnone : parse_pos_range "" = .None := rfl
  have he : ("" : String).data = [] := rfl
  simp [recordMatches, h1, h2, h3, h4, hnone, he, pos_ok]

/-- Witness for C4: the identity conclusion at the concrete state with all
criteria empty. -/
theorem c4_filter_identity_witness :
    filtered_records exVcfEmpty = exVcfEmpty.records :=
  (c4_filter_identity exVcfEmpty).1 ⟨rfl, rfl, rfl, rfl⟩

/-! ## Claim C5: the record decoder -/

/-- **C5.** The per-line decoder skips a line starting with `'#'`, skips a
line with fewer than 5 tab-separated fields, and otherwise builds a record
whose first five fields are the tab-separated fields positionally with
fields 5–7 defaulting to `"."`; the spec's concrete vectors are included. -/
theorem c5_record_decoder :
    (∀ l : String, l.data.head? = some '#' → parseLine l = none)
    ∧ (∀ l : String, (splitCh '\t' l.data).length < 5 → parseLine l = none)
    ∧ (∀ l : String, l.data.head? ≠ some '#' → 5 ≤ (splitCh '\t' l.data).length →
        parseLine l = some {
          chrom := ⟨(splitCh '\t' l.data).getD 0 []⟩
          pos := ⟨(splitCh '\t' l.data).getD 1 []⟩
          id := ⟨(splitCh '\t' l.data).getD 2 []⟩
          ref_ := ⟨(splitCh '\t' l.data).getD 3 []⟩
          alt := ⟨(splitCh '\t' l.data).getD 4 []⟩
          qual := ⟨(splitCh '\t' l.data).getD 5 ".".data⟩
          filter := ⟨(splitCh '\t' l.data).getD 6 ".".data⟩
          info := ⟨(splitCh '\t' l.data).getD 7 ".".data⟩ })
    ∧ parseLine "chr1\t100\trs1\tA\tG" =
        some { chrom := "chr1", pos := "100", id := "rs1", ref_ := "A", alt := "G"
               qual := ".", filter := ".", info := "." }
    ∧ parseLine "#comment" = none
    ∧ parseLine "a\tb\tc\td" = none := by
  refine ⟨?_, ?_, ?_, by decide, by decide, by decide⟩
  · intro l h
    simp [parseLine, h]
  · intro l h
    unfold parseLine
    split
    · rfl
    · simp [h]
  · intro l h1 h2
    have h2' : ¬ (splitCh '\t' l.data).length < 5 := Nat.not_lt.mpr h2
    simp [parseLine, h1, h2']

/-- Witness for C5: the positional conclusion at a concrete line with six
fields, via `c5_record_decoder`. -/
theorem c5_record_decoder_witness :
    parseLine "k\t9\tx\tC\tT\t50" = some {
      chrom := ⟨(splitCh '\t' ("k\t9\tx\tC\tT\t50" : String).data).getD 0 []⟩
      pos := ⟨(splitCh '\t' ("k\t9\tx\tC\tT\t50" : String).data).getD 1 []⟩
      id := ⟨(splitCh '\t' ("k\t9\tx\tC\tT\t50" : String).data).getD 2 []⟩
      ref_ := ⟨(splitCh '\t' ("k\t9\tx\tC\tT\t50" : String).data).getD 3 []⟩
      alt := ⟨(splitCh '\t' ("k\t9\tx\tC\tT\t50" : String).data).getD 4 []⟩
      qual := ⟨(splitCh '\t' ("k\t9\tx\tC\tT\t50" : String).data).getD 5 ".".data⟩
      filter := ⟨(splitCh '\t' ("k\t9\tx\tC\tT\t50" : String).data).getD 6 ".".data⟩
      info := ⟨(splitCh '\t' ("k\t9\tx\tC\tT\t50" : String).data).getD 7 ".".data⟩ } :=
  c5_record_decoder.2.2.1 "k\t9\tx\tC\tT\t50" (by decide) (by decide)

/-! ## Claim C6: a failed load degrades to an empty record set -/

/-- **C6.** If the decoder fails for the selected file (file unopenable or
a read errors), `load_selected_vcf` replaces the VCF-view record set by
the empty list and resets the record selection to `none`; the function is
total, so the failure is never propagated as a fatal error. -/
theorem c6_load_failure_empties
    (fs : String → Except Unit (List (Except Unit String)))
    (app : App) (idx : Nat)
    (hsel : app.files.selected = some idx)
    (herr : parse_vcf (fs (app.files.items.getD idx "")) = .error ()) :
    (load_selected_vcf fs app).vcf.records = []
    ∧ (load_selected_vcf fs app).vcf.selected = none := by
  constructor
  · simp only [load_selected_vcf, hsel]
    rw [herr]
    rfl
  · simp only [load_selected_vcf, hsel]

/-- Witness for C6: a concrete app whose only file fails to open. -/
theorem c6_load_failure_empties_witness :
    (load_selected_vcf exFsErr exAppFiles).vcf.records = []
    ∧ (load_selected_vcf exFsErr exAppFiles).vcf.selected = none :=
  c6_load_failure_empties exFsErr exAppFiles 0 rfl rfl

/-! ## Claim C7: the Menu modal -/

/-- **C7.** With the 6-item Menu modal open at highlighted index `k ≤ 5`:
Up moves to `k - 1` (clamped at 0), Down moves to `min (k+1) 5`; Enter at
index 0–3 replaces the modal by a TextInput modal for the chromosome,
reference, alternate or position field respectively; Enter at index 4
clears all four criteria and closes the modal; Enter at index 5 closes
the modal without mutating any criterion; Esc closes unconditionally. -/
theorem c7_menu_modal (app : App) (inp : String) (k : Nat)
    (h : app.modal = some { kind := .Menu, input := inp, menu_selected := k })
    (hk : k ≤ 5) :
    handle_modal_key app .Up =
      { app with modal := some { kind := .Menu, input := inp, menu_selected := k - 1 } }
    ∧ handle_modal_key app .Down =
      { app with modal := some { kind := .Menu, input := inp, menu_selected := min (k + 1) 5 } }
    ∧ (k = 0 → handle_modal_key app .Enter =
        { app with modal := some (ModalState.new_input .Chrom) })
    ∧ (k = 1 → handle_modal_key app .Enter =
        { app with modal := some (ModalState.new_input .Ref) })
    ∧ (k = 2 → handle_modal_key app .Enter =
        { app with modal := some (ModalState.new_input .Alt) })
    ∧ (k = 3 → handle_modal_key app .Enter =
        { app with modal := some (ModalState.new_input .Pos) })
    ∧ (k = 4 → handle_modal_key app .Enter =
        { app with
          vcf := { app.vcf with
            chrom_filter := "", ref_filter := "", alt_filter := "", pos_filter := "" }
          modal := none })
    ∧ (k = 5 → handle_modal_key app .Enter = { app with modal := none })
    ∧ handle_modal_key app .Esc = { app with modal := none } := by
  refine ⟨?_, ?_, ?_, ?_, ?_, ?_, ?_, ?_, ?_⟩
  · simp only [handle_modal_key, h]
    have hup : (if k > 0 then k - 1 else k) = k - 1 := by split <;> omega
    rw [hup]
  · simp only [handle_modal_key, h]
    have hdn : (if k < 5 then k + 1 else k) = min (k + 1) 5 := by split <;> omega
    rw [hdn]
  · rintro rfl; simp only [handle_modal_key, h]
  · rintro rfl; simp only [handle_modal_key, h]
  · rintro rfl; simp only [handle_modal_key, h]
  · rintro rfl; simp only [handle_modal_key, h]
  · rintro rfl; simp only [handle_modal_key, h]
  · rintro rfl; simp only [handle_modal_key, h]
  · simp only [handle_modal_key, h]

/-- Witness for C7: Esc on a concrete Menu modal closes it. -/
theorem c7_menu_modal_witness :
    handle_modal_key exAppMenu .Esc = { exAppMenu with modal := none } :=
  (c7_menu_modal exAppMenu "" 0 rfl (by decide)).2.2.2.2.2.2.2.2

/-! ## Claim C8: the TextInput modal -/

/-- **C8.** With a TextInput modal open (target field `k ≠ Menu`, buffer
`buf`): a character key appends to the buffer, Backspace removes the last
character, Enter commits the trimmed buffer verbatim as the criterion
named by `k` and closes the modal (a trimmed-empty buffer commits `""`,
clearing that criterion), and Esc closes the modal leaving the whole
application state — in particular all four criteria — exactly as it was. -/
theorem c8_text_input_modal (app : App) (k : ModalKind) (buf : String) (ms : Nat)
    (h : app.modal = some { kind := k, input := buf, menu_selected := ms })
    (hk : k ≠ .Menu) :
    (∀ c : Char, handle_modal_key app (.Char c) =
      { app with modal := some { kind := k, input := strPush buf c, menu_selected := ms } })
    ∧ handle_modal_key app .Backspace =
      { app with modal := some { kind := k, input := strPop buf, menu_selected := ms } }
    ∧ (k = .Chrom → handle_modal_key app .Enter =
        { app with vcf := { app.vcf with chrom_filter := trimStr buf }, modal := none })
    ∧ (k = .Ref → handle_modal_key app .Enter =
        { app with vcf := { app.vcf with ref_filter := trimStr buf }, modal := none })
    ∧ (k = .Alt → handle_modal_key app .Enter =
        { app with vcf := { app.vcf with alt_filter := trimStr buf }, modal := none })
    ∧ (k = .Pos → handle_modal_key app .Enter =
        { app with vcf := { app.vcf with pos_filter := trimStr buf }, modal := none })
    ∧ handle_modal_key app .Esc = { app with modal := none } := by
  cases k with
  | Menu => exact absurd rfl hk
  | Chrom =>
    refine ⟨?_, ?_, ?_, ?_, ?_, ?_, ?_⟩ <;> simp [handle_modal_key, h]
  | Ref =>
    refine ⟨?_, ?_, ?_, ?_, ?_, ?_, ?_⟩ <;> simp [handle_modal_key, h]
  | Alt =>
    refine ⟨?_, ?_, ?_, ?_, ?_, ?_, ?_⟩ <;> simp [handle_modal_key, h]
  | Pos =>
    refine ⟨?_, ?_, ?_, ?_, ?_, ?_, ?_⟩ <;> simp [handle_modal_key, h]

/-- Witness for C8: committing the buffer `" 200 "` from a concrete
position TextInput modal stores the trimmed criterion and closes the
modal. -/
theorem c8_text_input_modal_witness :
    handle_modal_key exAppInput .Enter =
      { exAppInput with
        vcf := { exAppInput.vcf with pos_filter := trimStr " 200 " }, modal := none } :=
  (c8_text_input_modal exAppInput .Pos " 200 " 0 rfl (by decide)).2.2.2.2.2.1 rfl

/-! ## Claim C10: commit frame effect and absence of re-clamping -/

/-- **C10.** Committing a criterion through the TextInput modal's Enter
transition closes the modal and changes only the targeted criterion: the
record list, record selection, tab state, file catalog, and the other
three criteria are untouched.  The record selection is never re-clamped
when criteria change: on the VCF tab, with the selection at `sel` at or
past the filtered view's length, Down is a no-op, while Up still
decrements whenever `0 < sel`. -/
theorem c10_commit_frame (app : App) (k : ModalKind) (buf : String) (ms : Nat)
    (h : app.modal = some { kind := k, input := buf, menu_selected := ms })
    (hk : k ≠ .Menu) :
    ((handle_modal_key app .Enter).modal = none
     ∧ (handle_modal_key app .Enter).vcf.records = app.vcf.records
     ∧ (handle_modal_key app .Enter).vcf.selected = app.vcf.selected
     ∧ (handle_modal_key app .Enter).tabs = app.tabs
     ∧ (handle_modal_key app .Enter).files = app.files
     ∧ (k = .Chrom →
        (handle_modal_key app .Enter).vcf.ref_filter = app.vcf.ref_filter
        ∧ (handle_modal_key app .Enter).vcf.alt_filter = app.vcf.alt_filter
        ∧ (handle_modal_key app .Enter).vcf.pos_filter = app.vcf.pos_filter
        ∧ (handle_modal_key app .Enter).vcf.chrom_filter = trimStr buf)
     ∧ (k = .Ref →
        (handle_modal_key app .Enter).vcf.chrom_filter = app.vcf.chrom_filter
        ∧ (handle_modal_key app .Enter).vcf.alt_filter = app.vcf.alt_filter
        ∧ (handle_modal_key app .Enter).vcf.pos_filter = app.vcf.pos_filter
        ∧ (handle_modal_key app .Enter).vcf.ref_filter = trimStr buf)
     ∧ (k = .Alt →
        (handle_modal_key app .Enter).vcf.chrom_filter = app.vcf.chrom_filter
        ∧ (handle_modal_key app .Enter).vcf.ref_filter = app.vcf.ref_filter
        ∧ (handle_modal_key app .Enter).vcf.pos_filter = app.vcf.pos_filter
        ∧ (handle_modal_key app .Enter).vcf.alt_filter = trimStr buf)
     ∧ (k = .Pos →
        (handle_modal_key app .Enter).vcf.chrom_filter = app.vcf.chrom_filter
        ∧ (handle_modal_key app .Enter).vcf.ref_filter = app.vcf.ref_filter
        ∧ (handle_modal_key app .Enter).vcf.alt_filter = app.vcf.alt_filter
        ∧ (handle_modal_key app .Enter).vcf.pos_filter = trimStr buf))
    ∧ (∀ (b : App) (sel : Nat), b.vcf.selected = some sel →
        (filtered_records b.vcf).length ≤ sel →
        (handle_vcf_tab b .Down).vcf.selected = some sel)
    ∧ (∀ (b : App) (sel : Nat), b.vcf.selected = some sel → 0 < sel →
        (handle_vcf_tab b .Up).vcf.selected = some (sel - 1)) := by
  refine ⟨?_, ?_, ?_⟩
  · cases k with
    | Menu => exact absurd rfl hk
    | Chrom =>
      refine ⟨?_, ?_, ?_, ?_, ?_, ?_, ?_, ?_, ?_⟩ <;> simp [handle_modal_key, h]
    | Ref =>
      refine ⟨?_, ?_, ?_, ?_, ?_, ?_, ?_, ?_, ?_⟩ <;> simp [handle_modal_key, h]
    | Alt =>
      refine ⟨?_, ?_, ?_, ?_, ?_, ?_, ?_, ?_, ?_⟩ <;> simp [handle_modal_key, h]
    | Pos =>
      refine ⟨?_, ?_, ?_, ?_, ?_, ?_, ?_, ?_, ?_⟩ <;> simp [handle_modal_key, h]
  · intro b sel hs hlen
    simp only [handle_vcf_tab, hs]
    rw [if_neg (by omega)]
    exact hs
  · intro b sel hs hpos
    simp only [handle_vcf_tab, hs]
    rw [if_pos hpos]

/-- Witness for C10: in a concrete stale state (selection index 5, empty
filtered view) Down leaves the selection at 5. -/
theorem c10_commit_frame_witness :
    (handle_vcf_tab exAppStale .Down).vcf.selected = some 5 :=
  (c10_commit_frame exAppInput .Pos " 200 " 0 rfl (by decide)).2.1 exAppStale 5 rfl
    (by decide)

/-! ## Claim C9: the file-catalog selection stays in bounds -/

/-- `load_selected_vcf` only touches the VCF view. -/
theorem load_selected_vcf_files
    (fs : String → Except Unit (List (Except Unit String))) (app : App) :
    (load_selected_vcf fs app).files = app.files := by
  unfold load_selected_vcf
  split <;> rfl

/-- `handle_modal_key` never touches the file catalog. -/
theorem handle_modal_key_files (app : App) (key : KeyCode) :
    (handle_modal_key app key).files = app.files := by
  unfold handle_modal_key
  repeat' split
  all_goals rfl

/-- `handle_vcf_tab` never touches the file catalog. -/
theorem handle_vcf_tab_files (app : App) (key : KeyCode) :
    (handle_vcf_tab app key).files = app.files := by
  cases key <;> simp only [handle_vcf_tab] <;> (repeat' split) <;> rfl

/-- `handle_files_tab` never changes the discovered item list. -/
theorem handle_files_tab_items
    (fs : String → Except Unit (List (Except Unit String)))
    (app : App) (key : KeyCode) :
    (handle_files_tab fs app key).files.items = app.files.items := by
  cases key <;> simp only [handle_files_tab] <;> (repeat' split) <;>
    first
    | rfl
    | (show (load_selected_vcf fs app).files.items = app.files.items
       rw [load_selected_vcf_files])

/-- States with the same file catalog share the invariant. -/
theorem FileSelInv_of_files_eq {a b : App} (hf : b.files = a.files)
    (h : FileSelInv a) : FileSelInv b := by
  intro i hi
  rw [hf] at hi
  rw [hf]
  exact h i hi

/-- `handle_files_tab` preserves the file-selection invariant. -/
theorem handle_files_tab_inv
    (fs : String → Except Unit (List (Except Unit String)))
    (app : App) (key : KeyCode) (h : FileSelInv app) :
    FileSelInv (handle_files_tab fs app key) := by
  intro i hi
  rw [handle_files_tab_items]
  revert hi
  cases key with
  | Char c =>
    simp only [handle_files_tab]
    split
    · exact h i
    · exact h i
  | Down =>
    simp only [handle_files_tab]
    split
    · next sel heq =>
      split
      · next hlt =>
        intro hi
        simp at hi
        omega
      · exact h i
    · exact h i
  | Up =>
    simp only [handle_files_tab]
    split
    · next sel heq =>
      split
      · next hpos =>
        intro hi
        simp at hi
        have := h sel heq
        omega
      · exact h i
    · exact h i
  | Enter =>
    intro hi
    replace hi : (load_selected_vcf fs app).files.selected = some i := hi
    rw [load_selected_vcf_files] at hi
    exact h i hi
  | Backspace => exact h i
  | Tab => exact h i
  | Other => exact h i
  | Esc => exact h i

/-- One event-loop step preserves the invariant and the item list. -/
theorem step_preserves
    (fs : String → Except Unit (List (Except Unit String)))
    (app : App) (key : KeyCode) (h : FileSelInv app) :
    FileSelInv (step fs app key) ∧ (step fs app key).files.items = app.files.items := by
  unfold step
  split
  · exact ⟨FileSelInv_of_files_eq (handle_modal_key_files app key) h,
      by rw [handle_modal_key_files]⟩
  · split
    · exact ⟨handle_files_tab_inv fs app key h, handle_files_tab_items fs app key⟩
    · exact ⟨FileSelInv_of_files_eq (handle_vcf_tab_files app key) h,
        by rw [handle_vcf_tab_files]⟩
    · exact ⟨h, rfl⟩

/-- The startup state's file catalog: the discovered items, with index 0
selected exactly when the catalog is non-empty. -/
theorem initApp_files
    (fs : String → Except Unit (List (Except Unit String))) (items : List String) :
    (initApp fs items).files =
      { items := items, selected := if items.isEmpty then none else some 0
        filter := "" } := by
  simp only [initApp]
  cases hI : items.isEmpty <;> simp [hI, load_selected_vcf_files, App.new]

/-- Folding event-loop steps preserves the invariant and the item list. -/
theorem foldl_step_preserves
    (fs : String → Except Unit (List (Except Unit String)))
    (keys : List KeyCode) (a : App) (h : FileSelInv a) :
    FileSelInv (keys.foldl (step fs) a)
    ∧ (keys.foldl (step fs) a).files.items = a.files.items := by
  induction keys generalizing a with
  | nil => exact ⟨h, rfl⟩
  | cons k ks ih =>
    simp only [List.foldl_cons]
    obtain ⟨h1, h2⟩ := step_preserves fs a k h
    obtain ⟨h3, h4⟩ := ih _ h1
    exact ⟨h3, by rw [h4, h2]⟩

/-- **C9.** In every state reachable from the startup state by key events,
the file catalog's item list is unchanged and its selection is `none` or
an index strictly below the item list's length, so the unchecked indexing
in `App::load_selected_vcf` never goes out of bounds. -/
theorem c9_file_selection_in_bounds
    (fs : String → Except Unit (List (Except Unit String)))
    (items : List String) (keys : List KeyCode) :
    (keys.foldl (step fs) (initApp fs items)).files.items = items
    ∧ FileSelInv (keys.foldl (step fs) (initApp fs items)) := by
  have hinv : FileSelInv (initApp fs items) := by
    intro i hi
    rw [initApp_files] at hi
    rw [initApp_files]
    cases items with
    | nil => simp at hi
    | cons x xs =>
      simp at hi
      simp [← hi]
  obtain ⟨h1, h2⟩ := foldl_step_preserves fs keys _ hinv
  rw [initApp_files] at h2
  exact ⟨h2, h1⟩

/-- Witness for C9 (instantiation at a concrete session): after a Down,
Enter, Down sequence on a two-file catalog the item list is intact. -/
theorem c9_file_selection_in_bounds_witness :
    (([KeyCode.Down, KeyCode.Enter, KeyCode.Down].foldl (step exFsErr)
        (initApp exFsErr ["a.vcf", "b.vcf"])).files.items = ["a.vcf", "b.vcf"]) :=
  (c9_file_selection_in_bounds exFsErr ["a.vcf", "b.vcf"]
    [KeyCode.Down, KeyCode.Enter, KeyCode.Down]).1

end Vcfscan
